import Mathlib

/-
Verification development for the kira/conductor audio engine core.

The definitions below are a shallow embedding of the Rust sources:
  - src/conductor/src/manager/backend/sequences.rs  (sequence backend)
  - src/conductor/src/command.rs                    (typed command groups)
  - src/conductor/src/project.rs                    (project resource store)
  - src/crates/kira/src/sound/static_sound/handle.rs (handle mutators)
  - src/crates/kira/src/sound/handle.rs             (handle trait)
  - src/kira/src/manager.rs                         (audio callback fill loop)

Machine floats (f64/f32) are embedded as rationals; collections with
insertion order (IndexMap) are embedded as association lists; the ringbuf
single-producer single-consumer queues are embedded as bounded lists.
Parts of the repository that are referenced but not present in the visible
sources (duration.rs, metronome.rs, sequence.rs, instance.rs, id.rs,
sound.rs, and the ringbuf crate contract) are modelled from the spec; each
such definition carries a doc comment saying so.
-/

set_option autoImplicit false

/-- Association-list view of an insertion-ordered map: the list of keys in order. -/
def keys {K V : Type} (l : List (K × V)) : List K :=
  l.map Prod.fst

/-- Lookup of the value stored under a key in an association list. -/
def lookupKey {K V : Type} [DecidableEq K] (k : K) : List (K × V) → Option V
  | [] => none
  | p :: rest => if p.1 = k then some p.2 else lookupKey k rest

/-- Removal of the entry stored under a key. IndexMap removal swaps entries
around inside the table; the claims settled here only depend on which
key/value pairs are present, so the embedding removes by filtering. -/
def removeKey {K V : Type} [DecidableEq K] (k : K) (l : List (K × V)) : List (K × V) :=
  l.filter fun p => decide (p.1 ≠ k)

/-- IndexMap/HashMap insertion: replace the value in place when the key is
already present, append a new entry otherwise. -/
def indexMapInsert {K V : Type} [DecidableEq K] (k : K) (v : V) (l : List (K × V)) : List (K × V) :=
  if l.any fun p => decide (p.1 = k) then
    l.map fun p => if p.1 = k then (k, v) else p
  else l ++ [(k, v)]

/-- get_mut on a map followed by an in-place mutation of the found value;
when the key is absent nothing happens. -/
def indexMapModify {K V : Type} [DecidableEq K] (k : K) (f : V → V) (l : List (K × V)) : List (K × V) :=
  l.map fun p => if p.1 = k then (p.1, f p.2) else p

/-- Modelled from the spec: the producer half of a bounded wait-free
single-producer single-consumer ring buffer (the ringbuf crate is an
external collaborator). The buffer holds the pushed, not yet consumed
items in push order. -/
structure RingProducer (T : Type) where
  capacity : Nat
  buffer : List T
deriving DecidableEq

/-- Modelled from the spec: push succeeds exactly when the ring has a free
slot, appending the item; on a full ring the item is handed back to the
caller (Err of the ringbuf push), here reported as the boolean false with
the ring unchanged. -/
def RingProducer.push {T : Type} (r : RingProducer T) (x : T) : RingProducer T × Bool :=
  if r.buffer.length < r.capacity then ({ r with buffer := r.buffer ++ [x] }, true)
  else (r, false)

/-- Modelled from the spec: easing functions for tweens, Linear plus a
pow-based family with a configurable exponent. -/
inductive Easing where
  | Linear
  | EaseIn (exponent : Nat)
  | EaseOut (exponent : Nat)
  | EaseInOut (exponent : Nat)
deriving DecidableEq

/-- Modelled from the spec: the application of an easing function. -/
def Easing.apply : Easing → ℚ → ℚ
  | .Linear, x => x
  | .EaseIn n, x => x ^ n
  | .EaseOut n, x => 1 - (1 - x) ^ n
  | .EaseInOut n, x => if x < 1/2 then (2 * x) ^ n / 2 else 1 - (2 - 2 * x) ^ n / 2

namespace Conductor

/-- Modelled from the spec: a tempo in beats per minute (tempo.rs is not in
the visible sources). -/
abbrev Tempo := ℚ

/-- Modelled from the spec: a tagged duration, Seconds or Beats
(duration.rs is not in the visible sources). -/
inductive Duration where
  | Seconds (s : ℚ)
  | Beats (b : ℚ)
deriving DecidableEq

/-- Modelled from the spec: conversion of a duration to seconds. Seconds
pass through; Beats are divided by the tempo in beats per second, that is
multiplied by 60 over the tempo in beats per minute. -/
def Duration.in_seconds : Duration → Tempo → ℚ
  | .Seconds s, _ => s
  | .Beats b, tempo => b * 60 / tempo

/-- Modelled from the spec: immutable metadata carried by a sound id, the
optional authored tempo and the optional semantic duration. -/
structure SoundMetadata where
  tempo : Option Tempo := none
  semantic_duration : Option Duration := none
deriving DecidableEq

/-- Modelled from the spec: a sound id together with the immutable metadata
captured at creation (duration in seconds, authored tempo, semantic
duration), so it can be consulted without chasing into the sound store. -/
structure SoundId where
  index : Nat
  duration : ℚ
  metadata : SoundMetadata
deriving DecidableEq

abbrev InstanceId := Nat

abbrev SequenceId := Nat

/-- Modelled from the spec: a tween configuration, a duration plus an
easing function. -/
structure Tween where
  duration : ℚ
  easing : Easing
deriving DecidableEq

/-- Modelled from the spec: the settings a playing instance starts from.
The sequence backend reads and rewrites the position field. -/
structure InstanceSettings where
  position : ℚ := 0
  volume : ℚ := 1
  pitch : ℚ := 1
  panning : ℚ := 1/2
  reverse : Bool := false
  loop_start : Option ℚ := none
deriving DecidableEq

/-- Loop settings for the LoopSound macro: optional loop start and loop
end durations. The `end` field of the source is spelled end_ because end
is reserved in Lean. -/
structure LoopSettings where
  start : Option Duration := none
  end_ : Option Duration := none
deriving DecidableEq

/-- Modelled from the spec: the metronome settings record the sequence
backend reads the current tempo from (metronome.rs is not in the visible
sources; sequences.rs reads metronome.settings.tempo). -/
structure MetronomeSettings where
  tempo : Tempo
deriving DecidableEq

/-- Modelled from the spec: the metronome, a musical clock in beats with
interval event triggers (metronome.rs is not in the visible sources). -/
structure Metronome where
  settings : MetronomeSettings
  beat_position : ℚ := 0
  previous_beat_position : ℚ := 0
  running : Bool := false
  interval_events_to_emit : List ℚ := []
deriving DecidableEq

/-- Modelled from the spec: an interval x fires when the beat position
crosses a positive multiple of x between the previous and current tick. -/
def Metronome.interval_passed (m : Metronome) (x : ℚ) : Bool :=
  decide (0 < x) && decide ((m.previous_beat_position / x).floor < (m.beat_position / x).floor)

/-- Modelled from the spec: a loaded sound, an immutable stereo PCM buffer
at a known sample rate (sound.rs is not in the visible sources). -/
structure Sound where
  sample_rate : Nat
  frames : List (ℚ × ℚ)
deriving DecidableEq

/-- Modelled from the spec: the duration of a sound in seconds. -/
def Sound.duration (s : Sound) : ℚ := (s.frames.length : ℚ) / (s.sample_rate : ℚ)

/-- Sound commands, from command.rs. -/
inductive SoundCommand where
  | LoadSound (id : SoundId) (sound : Sound)
  | UnloadSound (id : SoundId)
deriving DecidableEq

/-- Per-instance and broadcast instance commands, from command.rs. -/
inductive InstanceCommand where
  | PlaySound (sid : SoundId) (iid : InstanceId) (settings : InstanceSettings)
  | SetInstanceVolume (iid : InstanceId) (volume : ℚ) (tween : Option Tween)
  | SetInstancePitch (iid : InstanceId) (pitch : ℚ) (tween : Option Tween)
  | PauseInstance (iid : InstanceId) (fade_tween : Option Tween)
  | ResumeInstance (iid : InstanceId) (fade_tween : Option Tween)
  | StopInstance (iid : InstanceId) (fade_tween : Option Tween)
  | PauseInstancesOfSound (sid : SoundId) (fade_tween : Option Tween)
  | ResumeInstancesOfSound (sid : SoundId) (fade_tween : Option Tween)
  | StopInstancesOfSound (sid : SoundId) (fade_tween : Option Tween)
deriving DecidableEq

/-- Metronome commands, from command.rs. -/
inductive MetronomeCommand where
  | SetMetronomeTempo (tempo : Tempo)
  | StartMetronome
  | PauseMetronome
  | StopMetronome
deriving DecidableEq

/-- The commands a running sequence emits, as consumed by the conversion
match in Sequences.update (sequences.rs); sequence.rs itself is not in the
visible sources, so the variants are taken from that match. -/
inductive SequenceOutputCommand (E : Type) where
  | PlaySound (sid : SoundId) (iid : InstanceId) (settings : InstanceSettings)
  | SetInstanceVolume (iid : InstanceId) (volume : ℚ) (tween : Option Tween)
  | SetInstancePitch (iid : InstanceId) (pitch : ℚ) (tween : Option Tween)
  | PauseInstance (iid : InstanceId) (fade_tween : Option Tween)
  | ResumeInstance (iid : InstanceId) (fade_tween : Option Tween)
  | StopInstance (iid : InstanceId) (fade_tween : Option Tween)
  | PauseInstancesOfSound (sid : SoundId) (fade_tween : Option Tween)
  | ResumeInstancesOfSound (sid : SoundId) (fade_tween : Option Tween)
  | StopInstancesOfSound (sid : SoundId) (fade_tween : Option Tween)
  | SetMetronomeTempo (tempo : Tempo)
  | StartMetronome
  | PauseMetronome
  | StopMetronome
  | EmitCustomEvent (event : E)
deriving DecidableEq

/-- Modelled from the spec: the runtime state of a sequence. -/
inductive SequenceState where
  | Playing
  | Paused
  | Finished
deriving DecidableEq

/-- Modelled from the spec: the steps of an authored sequence timeline
(sequence.rs is not in the visible sources). -/
inductive SequenceTask (E : Type) where
  | Wait (d : Duration)
  | WaitForInterval (x : ℚ)
  | PlaySound (sid : SoundId) (settings : InstanceSettings)
  | SetInstanceVolume (iid : InstanceId) (volume : ℚ) (tween : Option Tween)
  | SetInstancePitch (iid : InstanceId) (pitch : ℚ) (tween : Option Tween)
  | PauseInstance (iid : InstanceId) (fade_tween : Option Tween)
  | ResumeInstance (iid : InstanceId) (fade_tween : Option Tween)
  | StopInstance (iid : InstanceId) (fade_tween : Option Tween)
  | PauseInstancesOfSound (sid : SoundId) (fade_tween : Option Tween)
  | ResumeInstancesOfSound (sid : SoundId) (fade_tween : Option Tween)
  | StopInstancesOfSound (sid : SoundId) (fade_tween : Option Tween)
  | SetMetronomeTempo (tempo : Tempo)
  | StartMetronome
  | PauseMetronome
  | StopMetronome
  | EmitCustomEvent (event : E)
  | StartLoop
  | GoToStep (i : Nat)
deriving DecidableEq

/-- Modelled from the spec: a sequence, an authored list of steps plus the
runtime state of the timeline interpreter: program counter, mute flag,
play state, wait timer and optional loop anchor (sequence.rs is not in
the visible sources). The next_instance_id counter mints the instance ids
of emitted PlaySound commands. -/
structure Sequence (E : Type) where
  tasks : List (SequenceTask E) := []
  pc : Nat := 0
  muted : Bool := false
  state : SequenceState := .Paused
  wait_timer : ℚ := 0
  loop_anchor : Option Nat := none
  next_instance_id : Nat := 0
deriving DecidableEq

/-- Modelled from the spec: a fresh, not yet started sequence with no steps. -/
def Sequence.new {E : Type} : Sequence E := {}

/-- Modelled from the spec: append a PlaySound step. -/
def Sequence.play_sound {E : Type} (s : Sequence E) (sid : SoundId)
    (settings : InstanceSettings) : Sequence E :=
  { s with tasks := s.tasks ++ [.PlaySound sid settings] }

/-- Modelled from the spec: append a Wait step. -/
def Sequence.wait {E : Type} (s : Sequence E) (d : Duration) : Sequence E :=
  { s with tasks := s.tasks ++ [.Wait d] }

/-- Modelled from the spec: append a StartLoop step. -/
def Sequence.start_loop {E : Type} (s : Sequence E) : Sequence E :=
  { s with tasks := s.tasks ++ [.StartLoop] }

/-- Modelled from the spec: starting a sequence puts it in the Playing state. -/
def Sequence.start {E : Type} (s : Sequence E) : Sequence E :=
  { s with state := .Playing }

/-- Modelled from the spec: muting suppresses the PlaySound emissions only. -/
def Sequence.mute {E : Type} (s : Sequence E) : Sequence E :=
  { s with muted := true }

/-- Modelled from the spec: unmuting restores PlaySound emissions. -/
def Sequence.unmute {E : Type} (s : Sequence E) : Sequence E :=
  { s with muted := false }

/-- Modelled from the spec: pausing freezes the program counter and wait
timer; a finished sequence stays finished. -/
def Sequence.pause {E : Type} (s : Sequence E) : Sequence E :=
  if s.state = .Finished then s else { s with state := .Paused }

/-- Modelled from the spec: resuming a paused sequence. -/
def Sequence.resume {E : Type} (s : Sequence E) : Sequence E :=
  if s.state = .Paused then { s with state := .Playing } else s

/-- Modelled from the spec: stopping transitions the sequence to Finished. -/
def Sequence.stop {E : Type} (s : Sequence E) : Sequence E :=
  { s with state := .Finished }

/-- Whether the sequence has finished. -/
def Sequence.finished {E : Type} (s : Sequence E) : Bool :=
  decide (s.state = .Finished)

/-- Modelled from the spec: one tick of the timeline interpreter once the
wait timer has elapsed. Steps execute in order, emitting output commands
immediately, until a Wait sets a positive timer, a WaitForInterval blocks,
the end of the list is reached with no loop anchor (Finished), or the fuel
bound is exhausted. -/
def Sequence.runSteps {E : Type} (m : Metronome) :
    Nat → Sequence E → List (SequenceOutputCommand E) →
    Sequence E × List (SequenceOutputCommand E)
  | 0, s, acc => (s, acc)
  | fuel + 1, s, acc =>
    match s.tasks[s.pc]? with
    | none =>
      match s.loop_anchor with
      | some a => Sequence.runSteps m fuel { s with pc := a } acc
      | none => ({ s with state := .Finished }, acc)
    | some task =>
      match task with
      | .Wait d =>
        let s1 : Sequence E :=
          { s with wait_timer := d.in_seconds m.settings.tempo, pc := s.pc + 1 }
        if 0 < s1.wait_timer then (s1, acc) else Sequence.runSteps m fuel s1 acc
      | .WaitForInterval x =>
        if m.interval_passed x then Sequence.runSteps m fuel { s with pc := s.pc + 1 } acc
        else (s, acc)
      | .PlaySound sid settings =>
        let acc1 := if s.muted then acc
          else acc ++ [.PlaySound sid s.next_instance_id settings]
        Sequence.runSteps m fuel
          { s with pc := s.pc + 1, next_instance_id := s.next_instance_id + 1 } acc1
      | .SetInstanceVolume iid v t =>
        Sequence.runSteps m fuel { s with pc := s.pc + 1 } (acc ++ [.SetInstanceVolume iid v t])
      | .SetInstancePitch iid p t =>
        Sequence.runSteps m fuel { s with pc := s.pc + 1 } (acc ++ [.SetInstancePitch iid p t])
      | .PauseInstance iid t =>
        Sequence.runSteps m fuel { s with pc := s.pc + 1 } (acc ++ [.PauseInstance iid t])
      | .ResumeInstance iid t =>
        Sequence.runSteps m fuel { s with pc := s.pc + 1 } (acc ++ [.ResumeInstance iid t])
      | .StopInstance iid t =>
        Sequence.runSteps m fuel { s with pc := s.pc + 1 } (acc ++ [.StopInstance iid t])
      | .PauseInstancesOfSound sid t =>
        Sequence.runSteps m fuel { s with pc := s.pc + 1 } (acc ++ [.PauseInstancesOfSound sid t])
      | .ResumeInstancesOfSound sid t =>
        Sequence.runSteps m fuel { s with pc := s.pc + 1 } (acc ++ [.ResumeInstancesOfSound sid t])
      | .StopInstancesOfSound sid t =>
        Sequence.runSteps m fuel { s with pc := s.pc + 1 } (acc ++ [.StopInstancesOfSound sid t])
      | .SetMetronomeTempo t =>
        Sequence.runSteps m fuel { s with pc := s.pc + 1 } (acc ++ [.SetMetronomeTempo t])
      | .StartMetronome =>
        Sequence.runSteps m fuel { s with pc := s.pc + 1 } (acc ++ [.StartMetronome])
      | .PauseMetronome =>
        Sequence.runSteps m fuel { s with pc := s.pc + 1 } (acc ++ [.PauseMetronome])
      | .StopMetronome =>
        Sequence.runSteps m fuel { s with pc := s.pc + 1 } (acc ++ [.StopMetronome])
      | .EmitCustomEvent e =>
        Sequence.runSteps m fuel { s with pc := s.pc + 1 } (acc ++ [.EmitCustomEvent e])
      | .StartLoop =>
        Sequence.runSteps m fuel { s with pc := s.pc + 1, loop_anchor := some (s.pc + 1) } acc
      | .GoToStep i =>
        Sequence.runSteps m fuel { s with pc := i } acc

/-- Modelled from the spec: one tick of a sequence. A paused or finished
sequence does nothing; a positive wait timer is decremented by dt with no
emission; otherwise the interpreter executes steps. -/
def Sequence.update {E : Type} (s : Sequence E) (dt : ℚ) (m : Metronome) :
    Sequence E × List (SequenceOutputCommand E) :=
  if s.state = .Playing then
    if 0 < s.wait_timer then ({ s with wait_timer := s.wait_timer - dt }, [])
    else Sequence.runSteps m (s.tasks.length + 1) s []
  else (s, [])

/-- Sequence commands, from command.rs. -/
inductive SequenceCommand (E : Type) where
  | StartSequence (id : SequenceId) (sequence : Sequence E)
  | LoopSound (id : SequenceId) (sid : SoundId) (loop_settings : LoopSettings)
      (instance_settings : InstanceSettings)
  | MuteSequence (id : SequenceId)
  | UnmuteSequence (id : SequenceId)
  | PauseSequence (id : SequenceId)
  | ResumeSequence (id : SequenceId)
  | StopSequence (id : SequenceId)
deriving DecidableEq

/-- The top-level command groups, from command.rs. -/
inductive Command (E : Type) where
  | Sound (c : SoundCommand)
  | Instance (c : InstanceCommand)
  | Metronome (c : MetronomeCommand)
  | Sequence (c : SequenceCommand E)
  | EmitCustomEvent (event : E)
deriving DecidableEq

/-- The governing tempo read in the LoopSound arm of Sequences.run_command
(sequences.rs): the authored tempo of the sound when present, else the
tempo of the metronome. -/
def governingTempo (sid : SoundId) (m : Metronome) : Tempo :=
  sid.metadata.tempo.getD m.settings.tempo

/-- The default loop end duration read in the LoopSound arm (sequences.rs):
the semantic duration of the sound when present, else its full duration in
seconds. -/
def defaultLoopEnd (sid : SoundId) : Duration :=
  sid.metadata.semantic_duration.getD (.Seconds sid.duration)

/-- The loop start of the LoopSound arm resolved to seconds (sequences.rs):
an unset start defaults to zero seconds. -/
def loopStartSeconds (sid : SoundId) (ls : LoopSettings) (m : Metronome) : ℚ :=
  (ls.start.getD (.Seconds 0)).in_seconds (governingTempo sid m)

/-- The loop end of the LoopSound arm resolved to seconds (sequences.rs). -/
def loopEndSeconds (sid : SoundId) (ls : LoopSettings) (m : Metronome) : ℚ :=
  (ls.end_.getD (defaultLoopEnd sid)).in_seconds (governingTempo sid m)

/-- The sequence backend state, from sequences.rs: the insertion-ordered
map of live sequences plus the reusable scratch vectors. -/
structure Sequences (E : Type) where
  sequences : List (SequenceId × Sequence E) := []
  sequences_to_remove : List SequenceId := []
  sequence_output_command_queue : List (SequenceOutputCommand E) := []
  output_command_queue : List (Command E) := []
deriving DecidableEq

/-- Sequences::new, from sequences.rs; the capacities only preallocate the
containers and leave them empty. -/
def Sequences.new {E : Type} (sequence_capacity command_capacity : Nat) : Sequences E :=
  let _ := sequence_capacity
  let _ := command_capacity
  {}

/-- Sequences::start_sequence, from sequences.rs: start the sequence and
insert it under the given id. -/
def Sequences.start_sequence {E : Type} (s : Sequences E) (id : SequenceId)
    (sequence : Sequence E) : Sequences E :=
  { s with sequences := indexMapInsert id sequence.start s.sequences }

/-- Sequences::run_command, from sequences.rs. The LoopSound arm resolves
the loop bounds to seconds against the governing tempo at expansion time
and synthesizes the play/wait/loop sequence; the mute, unmute, pause,
resume and stop arms mutate the addressed sequence when present and do
nothing otherwise. -/
def Sequences.run_command {E : Type} (s : Sequences E) (command : SequenceCommand E)
    (m : Metronome) : Sequences E :=
  match command with
  | .StartSequence id sequence => s.start_sequence id sequence
  | .LoopSound id sid loop_settings instance_settings =>
    let start := loopStartSeconds sid loop_settings m
    let endSec := loopEndSeconds sid loop_settings m
    let sequence : Sequence E :=
      ((((Sequence.new.play_sound sid instance_settings).wait
        (.Seconds (endSec - instance_settings.position))).start_loop).play_sound sid
        { instance_settings with position := start }).wait (.Seconds (endSec - start))
    s.start_sequence id sequence
  | .MuteSequence id =>
    { s with sequences := indexMapModify id Sequence.mute s.sequences }
  | .UnmuteSequence id =>
    { s with sequences := indexMapModify id Sequence.unmute s.sequences }
  | .PauseSequence id =>
    { s with sequences := indexMapModify id Sequence.pause s.sequences }
  | .ResumeSequence id =>
    { s with sequences := indexMapModify id Sequence.resume s.sequences }
  | .StopSequence id =>
    { s with sequences := indexMapModify id Sequence.stop s.sequences }

/-- The conversion match of Sequences::update, from sequences.rs: each
sequence output command becomes the corresponding backend command with the
same arguments. -/
def toBackendCommand {E : Type} : SequenceOutputCommand E → Command E
  | .PlaySound sid iid settings => .Instance (.PlaySound sid iid settings)
  | .SetInstanceVolume iid v t => .Instance (.SetInstanceVolume iid v t)
  | .SetInstancePitch iid p t => .Instance (.SetInstancePitch iid p t)
  | .PauseInstance iid t => .Instance (.PauseInstance iid t)
  | .ResumeInstance iid t => .Instance (.ResumeInstance iid t)
  | .StopInstance iid t => .Instance (.StopInstance iid t)
  | .PauseInstancesOfSound sid t => .Instance (.PauseInstancesOfSound sid t)
  | .ResumeInstancesOfSound sid t => .Instance (.ResumeInstancesOfSound sid t)
  | .StopInstancesOfSound sid t => .Instance (.StopInstancesOfSound sid t)
  | .SetMetronomeTempo t => .Metronome (.SetMetronomeTempo t)
  | .StartMetronome => .Metronome .StartMetronome
  | .PauseMetronome => .Metronome .PauseMetronome
  | .StopMetronome => .Metronome .StopMetronome
  | .EmitCustomEvent e => .EmitCustomEvent e

/-- The removal loop of Sequences::update, from sequences.rs: remove each
listed sequence from the map and push it onto the return ring; when the
push fails because the ring is full, reinsert the sequence under its id.
The unwrap of the source is total here because the listed ids come from
the map. -/
def removeFinished {E : Type} (seqs : List (SequenceId × Sequence E))
    (ring : RingProducer (Sequence E)) :
    List SequenceId → List (SequenceId × Sequence E) × RingProducer (Sequence E)
  | [] => (seqs, ring)
  | id :: rest =>
    match lookupKey id seqs with
    | none => removeFinished seqs ring rest
    | some sequence =>
      let seqs1 := removeKey id seqs
      let pr := ring.push sequence
      if pr.2 then removeFinished seqs1 pr.1 rest
      else removeFinished (indexMapInsert id sequence seqs1) ring rest

/-- Phase one of Sequences::update: each sequence stepped by one tick. -/
def Sequences.steppedSeqs {E : Type} (s : Sequences E) (dt : ℚ) (m : Metronome) :
    List (SequenceId × Sequence E) :=
  s.sequences.map fun p => (p.1, (p.2.update dt m).1)

/-- Phase one of Sequences::update: the output commands the sequences emit
this tick, concatenated in map order. -/
def Sequences.emittedCmds {E : Type} (s : Sequences E) (dt : ℚ) (m : Metronome) :
    List (SequenceOutputCommand E) :=
  s.sequences.flatMap fun p => (p.2.update dt m).2

/-- Phase one of Sequences::update: the ids of the sequences that report
finished after their tick, in map order. -/
def Sequences.finishedIds {E : Type} (s : Sequences E) (dt : ℚ) (m : Metronome) :
    List SequenceId :=
  ((s.steppedSeqs dt m).filter fun p => p.2.finished).map Prod.fst

/-- Sequences::update, from sequences.rs: step every sequence collecting
its output commands, remove the finished sequences (pushing them onto the
sequence return ring, reinserting on a full ring), convert the collected
output commands to backend commands one-to-one in emission order, and
return them, leaving the scratch vectors drained. -/
def Sequences.update {E : Type} (s : Sequences E) (dt : ℚ) (m : Metronome)
    (ring : RingProducer (Sequence E)) :
    Sequences E × RingProducer (Sequence E) × List (Command E) :=
  let seqs1 := s.steppedSeqs dt m
  let queue1 := s.sequence_output_command_queue ++ s.emittedCmds dt m
  let to_remove := s.sequences_to_remove ++ s.finishedIds dt m
  let rr := removeFinished seqs1 ring to_remove
  ({ sequences := rr.1, sequences_to_remove := [],
     sequence_output_command_queue := [], output_command_queue := [] },
   rr.2,
   s.output_command_queue ++ queue1.map toBackendCommand)

/- Modelled from the spec: opaque ids minted for project resources
(id.rs is not in the visible sources); project.rs imports these ids,
which carry no metadata. -/
namespace Id

abbrev SoundId := Nat

abbrev MetronomeId := Nat

end Id

/-- Metronome settings as exposed by project.rs: the interval events the
metronome should emit. -/
structure Project.MetronomeSettings where
  interval_events_to_emit : List ℚ := []
deriving DecidableEq

/-- Modelled from the spec: Metronome::new as called by
Project::create_metronome (metronome.rs is not in the visible sources):
a stopped metronome at beat position zero with the given tempo and
interval events. -/
def Metronome.new (tempo : Tempo) (settings : Project.MetronomeSettings) : Metronome :=
  { settings := { tempo := tempo },
    interval_events_to_emit := settings.interval_events_to_emit }

/-- The project resource store, from project.rs: the loaded sounds and the
created metronomes, addressable by id. The counters model the global
fresh-id minting of SoundId::new and MetronomeId::new (id.rs is not in the
visible sources). -/
structure Project where
  sounds : List (Id.SoundId × Sound) := []
  metronomes : List (Id.MetronomeId × Metronome) := []
  next_sound_id : Nat := 0
  next_metronome_id : Nat := 0
deriving DecidableEq

/-- Project::load_sound, from project.rs. Decoding is an external
collaborator (Sound::from_ogg_file is not in the visible sources), so the
decode outcome is taken as an argument. A fresh id is minted first; on
decode failure the error propagates before any insertion; on success the
decoded sound is inserted under the fresh id, which is returned. -/
def Project.load_sound {ε : Type} (p : Project) (decoded : Except ε Sound) :
    Project × Except ε Id.SoundId :=
  let id := p.next_sound_id
  let p1 : Project := { p with next_sound_id := p.next_sound_id + 1 }
  match decoded with
  | .error e => (p1, .error e)
  | .ok sound => ({ p1 with sounds := indexMapInsert id sound p1.sounds }, .ok id)

/-- Project::create_metronome, from project.rs: mint a fresh id, insert a
new metronome under it and return the id. -/
def Project.create_metronome (p : Project) (tempo : Tempo)
    (settings : Project.MetronomeSettings) : Project × Id.MetronomeId :=
  let id := p.next_metronome_id
  ({ p with next_metronome_id := p.next_metronome_id + 1,
            metronomes := indexMapInsert id (Metronome.new tempo settings) p.metronomes },
   id)

/-- Modelled from the spec: a running tween with its start and end values,
duration, elapsed time and easing. -/
structure ActiveTween where
  start_value : ℚ
  end_value : ℚ
  duration : ℚ
  elapsed : ℚ
  easing : Easing
deriving DecidableEq

/-- Modelled from the spec: a parameter, a scalar plus its optional active
tween. -/
structure Param where
  value : ℚ
  tween : Option ActiveTween := none
deriving DecidableEq

/-- Modelled from the spec: stepping a parameter advances the elapsed time
of the active tween, sets the value by eased interpolation, and clears the
tween at completion (a zero duration snaps on the first step). -/
def Param.step (p : Param) (dt : ℚ) : Param :=
  match p.tween with
  | none => p
  | some tw =>
    let elapsed := tw.elapsed + dt
    if tw.duration ≤ elapsed then { value := tw.end_value, tween := none }
    else
      { value := tw.easing.apply
          (tw.start_value + (tw.end_value - tw.start_value) * (elapsed / tw.duration)),
        tween := some { tw with elapsed := elapsed } }

/-- Modelled from the spec: retargeting a parameter; with no tween the
value snaps instantly, with a tween the parameter glides from its current
value to the target. -/
def Param.set (p : Param) (target : ℚ) (tween : Option Tween) : Param :=
  match tween with
  | none => { value := target, tween := none }
  | some tw =>
    { value := p.value,
      tween := some { start_value := p.value, end_value := target,
                      duration := tw.duration, elapsed := 0, easing := tw.easing } }

/-- Modelled from the spec: the per-instance playback state machine. -/
inductive PlaybackState where
  | Playing
  | Pausing
  | Paused
  | Resuming
  | Stopping
  | Stopped
deriving DecidableEq

/-- Modelled from the spec: one playing copy of a sound, its position in
seconds, its playback state and its volume, pitch, panning and fade
parameters (instance.rs is not in the visible sources). -/
structure Instance where
  sound_id : SoundId
  position : ℚ
  reverse : Bool := false
  loop_start : Option ℚ := none
  playback : PlaybackState := .Playing
  volume : Param := { value := 1 }
  pitch : Param := { value := 1 }
  panning : Param := { value := 1/2 }
  fade : Param := { value := 1 }
deriving DecidableEq

/-- Modelled from the spec: linear interpolation between the adjacent
frames of a sound at a fractional sample index. -/
def Sound.frame_at (s : Sound) (n : ℤ) : ℚ × ℚ :=
  if n < 0 then (0, 0) else s.frames.getD n.toNat (0, 0)

/-- Modelled from the spec: sampling a sound at a position in seconds by
linear interpolation between the two adjacent frames. -/
def Sound.sample (s : Sound) (pos : ℚ) : ℚ × ℚ :=
  let x : ℚ := pos * (s.sample_rate : ℚ)
  let n : ℤ := x.floor
  let frac : ℚ := x - (n : ℚ)
  let a := s.frame_at n
  let b := s.frame_at (n + 1)
  (a.1 + (b.1 - a.1) * frac, a.2 + (b.2 - a.2) * frac)

/-- Modelled from the spec: the per-frame step of an instance. Parameters
advance; a fully faded Pausing or Stopping instance lands in Paused or
Stopped; a Stopped or Paused instance contributes silence; otherwise the
position advances by dt times the pitch, wraps into the loop window or
stops at the end of the sound, and the sampled frame is scaled by fade,
volume and the linear panning law. -/
def Instance.step (i : Instance) (dt : ℚ) (sound : Sound) : Instance × ℚ × ℚ :=
  let i1 : Instance :=
    { i with volume := i.volume.step dt, pitch := i.pitch.step dt,
             panning := i.panning.step dt, fade := i.fade.step dt }
  let i2 : Instance :=
    match i1.playback with
    | .Pausing =>
      if i1.fade.value ≤ 0 ∧ i1.fade.tween = none then { i1 with playback := .Paused } else i1
    | .Stopping =>
      if i1.fade.value ≤ 0 ∧ i1.fade.tween = none then { i1 with playback := .Stopped } else i1
    | _ => i1
  if i2.playback = .Stopped ∨ i2.playback = .Paused then (i2, 0, 0)
  else
    let p := i2.pitch.value
    let pos := if i2.reverse then i2.position - dt * p else i2.position + dt * p
    if (¬ i2.reverse ∧ sound.duration ≤ pos) ∨ (i2.reverse ∧ pos < 0) then
      match i2.loop_start with
      | some ls =>
        let pos1 := if i2.reverse then sound.duration + pos else ls + (pos - sound.duration)
        let sm := sound.sample pos1
        let g := i2.volume.value * i2.fade.value
        ({ i2 with position := pos1 },
         sm.1 * (1 - i2.panning.value) * g, sm.2 * i2.panning.value * g)
      | none => ({ i2 with playback := .Stopped, position := pos }, 0, 0)
    else
      let sm := sound.sample pos
      let g := i2.volume.value * i2.fade.value
      ({ i2 with position := pos },
       sm.1 * (1 - i2.panning.value) * g, sm.2 * i2.panning.value * g)

/-- Modelled from the spec: the commands addressable to one instance. -/
inductive InstanceOp where
  | SetVolume (volume : ℚ) (tween : Option Tween)
  | SetPitch (pitch : ℚ) (tween : Option Tween)
  | Pause (tween : Option Tween)
  | Resume (tween : Option Tween)
  | Stop (tween : Option Tween)
deriving DecidableEq

/-- Modelled from the spec: the command transitions of the instance state
machine. SetVolume and SetPitch retarget from any non-Stopped state; Pause
moves Playing or Resuming to Pausing fading to zero; Resume moves Paused
or Pausing to Resuming fading to one; Stop moves any non-Stopped state to
Stopping fading to zero; Stopped is absorbing, every command is a no-op. -/
def Instance.run_op (i : Instance) (op : InstanceOp) : Instance :=
  match op with
  | .SetVolume v t =>
    if i.playback = .Stopped then i else { i with volume := i.volume.set v t }
  | .SetPitch p t =>
    if i.playback = .Stopped then i else { i with pitch := i.pitch.set p t }
  | .Pause t =>
    match i.playback with
    | .Playing => { i with playback := .Pausing, fade := i.fade.set 0 t }
    | .Resuming => { i with playback := .Pausing, fade := i.fade.set 0 t }
    | _ => i
  | .Resume t =>
    match i.playback with
    | .Paused => { i with playback := .Resuming, fade := i.fade.set 1 t }
    | .Pausing => { i with playback := .Resuming, fade := i.fade.set 1 t }
    | _ => i
  | .Stop t =>
    if i.playback = .Stopped then i else { i with playback := .Stopping, fade := i.fade.set 0 t }

/-- Idealized continuous-time schedule of the PlaySound emissions of a task
list, derived from the timeline semantics: Wait steps advance the clock by
their resolved seconds, PlaySound records the clock and the settings,
StartLoop plants the loop anchor, the end of the list jumps to the anchor
when one exists, and the fuel bounds the number of executed steps. -/
def schedTasks {E : Type} (tempo : Tempo) :
    Nat → List (SequenceTask E) → Nat → Option Nat → ℚ →
    List (ℚ × SoundId × InstanceSettings) → List (ℚ × SoundId × InstanceSettings)
  | 0, _, _, _, _, acc => acc
  | fuel + 1, tasks, pc, anchor, t, acc =>
    match tasks[pc]? with
    | none =>
      match anchor with
      | some a => schedTasks tempo fuel tasks a anchor t acc
      | none => acc
    | some task =>
      match task with
      | .Wait d => schedTasks tempo fuel tasks (pc + 1) anchor (t + d.in_seconds tempo) acc
      | .PlaySound sid settings =>
        schedTasks tempo fuel tasks (pc + 1) anchor t (acc ++ [(t, sid, settings)])
      | .StartLoop => schedTasks tempo fuel tasks (pc + 1) (some (pc + 1)) t acc
      | .GoToStep i => schedTasks tempo fuel tasks i anchor t acc
      | _ => schedTasks tempo fuel tasks (pc + 1) anchor t acc

end Conductor

namespace Kira

/-- Modelled from the spec: a volume setting (volume.rs is not in the
visible sources); embedded as a rational amplitude factor. -/
abbrev Volume := ℚ

/-- Modelled from the spec: a playback rate setting (playback_rate.rs is
not in the visible sources); embedded as a rational factor. -/
abbrev PlaybackRate := ℚ

/-- The command submission error surface: the only error a handle mutator
can report is a full command queue. -/
inductive CommandError where
  | CommandQueueFull
deriving DecidableEq

/-- Modelled from the spec: a tween configuration on the kira handle side. -/
structure Tween where
  duration : ℚ
  easing : Easing
deriving DecidableEq

/-- Modelled from the spec: the playback states a handle can observe. -/
inductive PlaybackState where
  | Playing
  | Pausing
  | Paused
  | Resuming
  | Stopping
  | Stopped
deriving DecidableEq

/-- The commands a static sound handle pushes, with the variants and
payloads used by handle.rs (the defining module is not in the visible
sources). -/
inductive Command where
  | SetVolume (volume : Volume) (tween : Tween)
  | SetPlaybackRate (playback_rate : PlaybackRate) (tween : Tween)
  | SetPanning (panning : ℚ) (tween : Tween)
  | Pause (tween : Tween)
  | Resume (tween : Tween)
  | Stop (tween : Tween)
  | SeekTo (position : ℚ)
  | SeekBy (amount : ℚ)
deriving DecidableEq

/-- Modelled from the spec: the snapshot the sound publishes for its
handle to read (state and position). -/
structure Shared where
  state : PlaybackState
  position : ℚ
deriving DecidableEq

/-- A static sound handle, from static_sound/handle.rs: the producer half
of the command ring plus the shared snapshot. -/
structure StaticSoundHandle where
  command_producer : RingProducer Command
  shared : Shared
deriving DecidableEq

/-- The shared body of every handle mutator in static_sound/handle.rs:
push the command onto the command ring and map a failed push (full ring)
to CommandQueueFull. -/
def StaticSoundHandle.pushCommand (h : StaticSoundHandle) (c : Command) :
    StaticSoundHandle × Except CommandError Unit :=
  let pr := h.command_producer.push c
  ({ h with command_producer := pr.1 },
   if pr.2 then .ok () else .error .CommandQueueFull)

/-- StaticSoundHandle::state, from static_sound/handle.rs. -/
def StaticSoundHandle.state (h : StaticSoundHandle) : PlaybackState :=
  h.shared.state

/-- StaticSoundHandle::position, from static_sound/handle.rs. -/
def StaticSoundHandle.position (h : StaticSoundHandle) : ℚ :=
  h.shared.position

/-- StaticSoundHandle::set_volume, from static_sound/handle.rs. -/
def StaticSoundHandle.set_volume (h : StaticSoundHandle) (volume : Volume) (tween : Tween) :
    StaticSoundHandle × Except CommandError Unit :=
  h.pushCommand (.SetVolume volume tween)

/-- StaticSoundHandle::set_playback_rate, from static_sound/handle.rs. -/
def StaticSoundHandle.set_playback_rate (h : StaticSoundHandle) (playback_rate : PlaybackRate)
    (tween : Tween) : StaticSoundHandle × Except CommandError Unit :=
  h.pushCommand (.SetPlaybackRate playback_rate tween)

/-- StaticSoundHandle::set_panning, from static_sound/handle.rs. -/
def StaticSoundHandle.set_panning (h : StaticSoundHandle) (panning : ℚ) (tween : Tween) :
    StaticSoundHandle × Except CommandError Unit :=
  h.pushCommand (.SetPanning panning tween)

/-- StaticSoundHandle::pause, from static_sound/handle.rs. -/
def StaticSoundHandle.pause (h : StaticSoundHandle) (tween : Tween) :
    StaticSoundHandle × Except CommandError Unit :=
  h.pushCommand (.Pause tween)

/-- StaticSoundHandle::resume, from static_sound/handle.rs. -/
def StaticSoundHandle.resume (h : StaticSoundHandle) (tween : Tween) :
    StaticSoundHandle × Except CommandError Unit :=
  h.pushCommand (.Resume tween)

/-- StaticSoundHandle::stop, from static_sound/handle.rs. -/
def StaticSoundHandle.stop (h : StaticSoundHandle) (tween : Tween) :
    StaticSoundHandle × Except CommandError Unit :=
  h.pushCommand (.Stop tween)

/-- StaticSoundHandle::seek_to, from static_sound/handle.rs. -/
def StaticSoundHandle.seek_to (h : StaticSoundHandle) (position : ℚ) :
    StaticSoundHandle × Except CommandError Unit :=
  h.pushCommand (.SeekTo position)

/-- StaticSoundHandle::seek_by, from static_sound/handle.rs. -/
def StaticSoundHandle.seek_by (h : StaticSoundHandle) (amount : ℚ) :
    StaticSoundHandle × Except CommandError Unit :=
  h.pushCommand (.SeekBy amount)

/-- A stereo frame produced by the backend for one device frame. -/
structure Frame where
  left : ℚ
  right : ℚ
deriving DecidableEq

/-- The per-frame write of the output stream callback in manager.rs: with
one channel the single sample is the average of left and right; otherwise
left is written to position 0 and right to position 1 of the frame. -/
def writeFrame (channels : Nat) (out : Frame) (chunk : List ℚ) : List ℚ :=
  if channels = 1 then chunk.set 0 ((out.left + out.right) / 2)
  else (chunk.set 0 out.left).set 1 out.right

/-- The fill loop of the output stream callback in manager.rs, iterating
over the exact chunks of channels samples, calling the backend process
once per chunk; the fuel argument only bounds the recursion and is always
given as the buffer length, which suffices because each iteration consumes
channels ≥ 1 samples. -/
def fillGo (channels : Nat) : Nat → (Nat → Frame) → List ℚ → List ℚ
  | 0, _, data => data
  | fuel + 1, process, data =>
    if 0 < channels ∧ channels ≤ data.length then
      writeFrame channels (process 0) (data.take channels) ++
        fillGo channels fuel (fun n => process (n + 1)) (data.drop channels)
    else data

/-- The output stream callback of AudioManager::new in manager.rs: fill
the data buffer frame by frame from the stream of frames the backend
produces. -/
def audioCallbackFill (channels : Nat) (process : Nat → Frame) (data : List ℚ) : List ℚ :=
  fillGo channels data.length process data

end Kira

@[simp]
theorem keys_nil {K V : Type} : keys ([] : List (K × V)) = [] := rfl

@[simp]
theorem keys_cons {K V : Type} (p : K × V) (l : List (K × V)) :
    keys (p :: l) = p.1 :: keys l := rfl

@[simp]
theorem keys_append {K V : Type} (l l1 : List (K × V)) :
    keys (l ++ l1) = keys l ++ keys l1 := by
  simp [keys]

theorem indexMapModify_of_not_mem {K V : Type} [DecidableEq K] (k : K) (f : V → V) :
    ∀ l : List (K × V), k ∉ keys l → indexMapModify k f l = l := by
  intro l h
  induction l with
  | nil => rfl
  | cons p rest ih =>
    simp only [keys_cons, List.mem_cons, not_or] at h
    simp only [indexMapModify, List.map_cons]
    rw [if_neg (fun hk => h.1 hk.symm)]
    have := ih h.2
    simp only [indexMapModify] at this
    rw [this]

theorem indexMapInsert_of_not_mem {K V : Type} [DecidableEq K] (k : K) (v : V)
    (l : List (K × V)) (h : k ∉ keys l) : indexMapInsert k v l = l ++ [(k, v)] := by
  have hany : (l.any fun p => decide (p.1 = k)) = false := by
    rw [List.any_eq_false]
    intro p hp
    simp only [decide_eq_true_eq]
    intro hk
    apply h
    simp only [keys]
    rw [← hk]
    exact List.mem_map_of_mem Prod.fst hp
  simp [indexMapInsert, hany]

namespace Conductor

/-- The exact sequence claim C1 states the LoopSound macro synthesizes and
starts: play once from the given position, wait until the loop end, then
loop playing from the loop start and waiting the loop length, the bounds
resolved to seconds at expansion time, in the Playing state with a fresh
program counter, wait timer and loop anchor. -/
def loopMacroSequence {E : Type} (sid : SoundId) (ls : LoopSettings)
    (st : InstanceSettings) (m : Metronome) : Sequence E where
  tasks := [
    .PlaySound sid st,
    .Wait (.Seconds (loopEndSeconds sid ls m - st.position)),
    .StartLoop,
    .PlaySound sid { st with position := loopStartSeconds sid ls m },
    .Wait (.Seconds (loopEndSeconds sid ls m - loopStartSeconds sid ls m))]
  pc := 0
  muted := false
  state := .Playing
  wait_timer := 0
  loop_anchor := none
  next_instance_id := 0

/-- Claim C1: for every LoopSound command, the sequence synthesized and
started is exactly PlaySound(sound, settings); Wait(end minus
settings.position, in seconds); StartLoop; PlaySound(sound, settings with
position = start); Wait(end minus start, in seconds), with start and end
the loop bounds resolved to seconds at expansion time; the sequence is
inserted under the given id in the Playing state. -/
theorem c1_loop_sound_synthesized_sequence {E : Type} (s : Sequences E) (m : Metronome)
    (id : SequenceId) (sid : SoundId) (ls : LoopSettings) (st : InstanceSettings) :
    s.run_command (.LoopSound id sid ls st) m =
      { s with sequences := indexMapInsert id (loopMacroSequence sid ls st m) s.sequences } :=
  rfl

/-- Claim C2: resolving the loop bounds of LoopSound to seconds, an unset
loop start gives 0 seconds; an unset loop end gives the semantic duration
of the sound when present, else its full duration; Beats convert through
the governing tempo, which is the authored tempo of the sound when present
and the tempo of the metronome otherwise. -/
theorem c2_loop_bounds_resolution (sid : SoundId) (ls : LoopSettings) (m : Metronome)
    (b : ℚ) :
    (ls.start = none → loopStartSeconds sid ls m = 0)
    ∧ (∀ d, ls.end_ = none → sid.metadata.semantic_duration = some d →
        loopEndSeconds sid ls m = d.in_seconds (governingTempo sid m))
    ∧ (ls.end_ = none → sid.metadata.semantic_duration = none →
        loopEndSeconds sid ls m = sid.duration)
    ∧ Duration.in_seconds (.Beats b) (governingTempo sid m) = b * 60 / governingTempo sid m
    ∧ (∀ t, sid.metadata.tempo = some t → governingTempo sid m = t)
    ∧ (sid.metadata.tempo = none → governingTempo sid m = m.settings.tempo) := by
  refine ⟨?_, ?_, ?_, rfl, ?_, ?_⟩ <;> intros <;>
    simp_all [loopStartSeconds, loopEndSeconds, defaultLoopEnd, governingTempo,
      Duration.in_seconds]

/-- A sound with an authored tempo of 120 beats per minute and a semantic
duration of 8 beats, used as a concrete input. -/
def sidTempoed : SoundId :=
  { index := 0, duration := 4,
    metadata := { tempo := some 120, semantic_duration := some (.Beats 8) } }

/-- A sound with no authored tempo and no semantic duration, used as a
concrete input. -/
def sidPlain : SoundId := { index := 1, duration := 4, metadata := {} }

/-- Loop settings with both bounds unset, used as a concrete input. -/
def lsUnset : LoopSettings := {}

/-- A metronome at 100 beats per minute, used as a concrete input. -/
def metBase : Metronome := { settings := { tempo := 100 } }

/-- Witness for claim C2 at the concrete sounds, loop settings and
metronome above. -/
theorem c2_loop_bounds_resolution_witness :
    loopStartSeconds sidTempoed lsUnset metBase = 0
    ∧ loopEndSeconds sidTempoed lsUnset metBase =
        (Duration.Beats 8).in_seconds (governingTempo sidTempoed metBase)
    ∧ loopEndSeconds sidPlain lsUnset metBase = sidPlain.duration
    ∧ Duration.in_seconds (.Beats 2) (governingTempo sidTempoed metBase) =
        2 * 60 / governingTempo sidTempoed metBase
    ∧ governingTempo sidTempoed metBase = 120
    ∧ governingTempo sidPlain metBase = metBase.settings.tempo :=
  ⟨(c2_loop_bounds_resolution sidTempoed lsUnset metBase 2).1 rfl,
   (c2_loop_bounds_resolution sidTempoed lsUnset metBase 2).2.1 (.Beats 8) rfl rfl,
   (c2_loop_bounds_resolution sidPlain lsUnset metBase 2).2.2.1 rfl rfl,
   (c2_loop_bounds_resolution sidTempoed lsUnset metBase 2).2.2.2.1,
   (c2_loop_bounds_resolution sidTempoed lsUnset metBase 2).2.2.2.2.1 120 rfl,
   (c2_loop_bounds_resolution sidPlain lsUnset metBase 2).2.2.2.2.2 rfl⟩

/-- Claim C9: a MuteSequence, UnmuteSequence, PauseSequence, ResumeSequence
or StopSequence command whose id is not in the sequence map leaves the
whole Sequences state unchanged. -/
theorem c9_unknown_sequence_id_noop {E : Type} (s : Sequences E) (m : Metronome)
    (id : SequenceId) (h : id ∉ keys s.sequences) :
    s.run_command (.MuteSequence id) m = s
    ∧ s.run_command (.UnmuteSequence id) m = s
    ∧ s.run_command (.PauseSequence id) m = s
    ∧ s.run_command (.ResumeSequence id) m = s
    ∧ s.run_command (.StopSequence id) m = s := by
  refine ⟨?_, ?_, ?_, ?_, ?_⟩ <;>
    simp [Sequences.run_command, indexMapModify_of_not_mem _ _ _ h]

/-- A sequence backend holding one sequence under id 3, used as a concrete
input. -/
def seqs9 : Sequences Unit := { sequences := [(3, Sequence.new)] }

/-- Witness for claim C9: id 5 is absent from the concrete map, and all
five commands leave the state unchanged. -/
theorem c9_unknown_sequence_id_noop_witness :
    (5 : SequenceId) ∉ keys seqs9.sequences
    ∧ seqs9.run_command (.MuteSequence 5) metBase = seqs9
    ∧ seqs9.run_command (.UnmuteSequence 5) metBase = seqs9
    ∧ seqs9.run_command (.PauseSequence 5) metBase = seqs9
    ∧ seqs9.run_command (.ResumeSequence 5) metBase = seqs9
    ∧ seqs9.run_command (.StopSequence 5) metBase = seqs9 :=
  ⟨by decide,
   (c9_unknown_sequence_id_noop seqs9 metBase 5 (by decide)).1,
   (c9_unknown_sequence_id_noop seqs9 metBase 5 (by decide)).2.1,
   (c9_unknown_sequence_id_noop seqs9 metBase 5 (by decide)).2.2.1,
   (c9_unknown_sequence_id_noop seqs9 metBase 5 (by decide)).2.2.2.1,
   (c9_unknown_sequence_id_noop seqs9 metBase 5 (by decide)).2.2.2.2⟩

/-- Claim C7: in each tick, Sequences::update converts the sequence
emitted output commands to backend commands one-to-one, preserving the
emission order of the sequences, returning them all as the result of the
drain; and each output command variant maps to the corresponding Instance,
Metronome or EmitCustomEvent backend command with the same arguments. -/
theorem c7_output_command_conversion {E : Type} (s : Sequences E) (dt : ℚ) (m : Metronome)
    (ring : RingProducer (Sequence E))
    (h1 : s.sequence_output_command_queue = []) (h2 : s.output_command_queue = []) :
    (s.update dt m ring).2.2 =
      ((s.sequences.flatMap fun p => (p.2.update dt m).2).map toBackendCommand)
    ∧ (∀ sid iid st, toBackendCommand (E := E) (.PlaySound sid iid st)
        = .Instance (.PlaySound sid iid st))
    ∧ (∀ iid v t, toBackendCommand (E := E) (.SetInstanceVolume iid v t)
        = .Instance (.SetInstanceVolume iid v t))
    ∧ (∀ iid p t, toBackendCommand (E := E) (.SetInstancePitch iid p t)
        = .Instance (.SetInstancePitch iid p t))
    ∧ (∀ iid t, toBackendCommand (E := E) (.PauseInstance iid t)
        = .Instance (.PauseInstance iid t))
    ∧ (∀ iid t, toBackendCommand (E := E) (.ResumeInstance iid t)
        = .Instance (.ResumeInstance iid t))
    ∧ (∀ iid t, toBackendCommand (E := E) (.StopInstance iid t)
        = .Instance (.StopInstance iid t))
    ∧ (∀ sid t, toBackendCommand (E := E) (.PauseInstancesOfSound sid t)
        = .Instance (.PauseInstancesOfSound sid t))
    ∧ (∀ sid t, toBackendCommand (E := E) (.ResumeInstancesOfSound sid t)
        = .Instance (.ResumeInstancesOfSound sid t))
    ∧ (∀ sid t, toBackendCommand (E := E) (.StopInstancesOfSound sid t)
        = .Instance (.StopInstancesOfSound sid t))
    ∧ (∀ t, toBackendCommand (E := E) (.SetMetronomeTempo t)
        = .Metronome (.SetMetronomeTempo t))
    ∧ toBackendCommand (E := E) .StartMetronome = .Metronome .StartMetronome
    ∧ toBackendCommand (E := E) .PauseMetronome = .Metronome .PauseMetronome
    ∧ toBackendCommand (E := E) .StopMetronome = .Metronome .StopMetronome
    ∧ (∀ e : E, toBackendCommand (.EmitCustomEvent e) = .EmitCustomEvent e) := by
  refine ⟨?_, fun _ _ _ => rfl, fun _ _ _ => rfl, fun _ _ _ => rfl, fun _ _ => rfl,
    fun _ _ => rfl, fun _ _ => rfl, fun _ _ => rfl, fun _ _ => rfl, fun _ _ => rfl,
    fun _ => rfl, rfl, rfl, rfl, fun _ => rfl⟩
  simp [Sequences.update, Sequences.emittedCmds, h1, h2]

/-- A sequence backend holding one playing sequence that emits one custom
event, used as a concrete input. -/
def seqs7 : Sequences Unit :=
  { sequences := [(0, { tasks := [.EmitCustomEvent ()], state := .Playing })] }

/-- An empty sequence return ring with room for four sequences, used as a
concrete input. -/
def ring7 : RingProducer (Sequence Unit) := { capacity := 4, buffer := [] }

/-- Witness for claim C7: at the concrete backend the scratch queues are
empty, the drained commands are the converted emissions, and they evaluate
to exactly one EmitCustomEvent backend command. -/
theorem c7_output_command_conversion_witness :
    seqs7.sequence_output_command_queue = []
    ∧ seqs7.output_command_queue = []
    ∧ (seqs7.update 1 metBase ring7).2.2 =
        ((seqs7.sequences.flatMap fun p => (p.2.update 1 metBase).2).map toBackendCommand)
    ∧ (seqs7.update 1 metBase ring7).2.2 = [Command.EmitCustomEvent ()] :=
  ⟨rfl, rfl, (c7_output_command_conversion seqs7 1 metBase ring7 rfl rfl).1, by decide⟩

end Conductor

namespace Kira

/-- The contract of the shared mutator body: the push succeeds exactly
when the ring has a free slot, appending the command; on a full ring the
mutator reports CommandQueueFull and leaves the handle unchanged. -/
theorem pushCommand_spec (h : StaticSoundHandle) (c : Command) :
    ((h.pushCommand c).2 = .ok () ↔
      h.command_producer.buffer.length < h.command_producer.capacity)
    ∧ ((h.pushCommand c).2 = .ok () →
      (h.pushCommand c).1.command_producer.buffer = h.command_producer.buffer ++ [c])
    ∧ ((h.pushCommand c).2 = .error .CommandQueueFull ↔
      ¬ h.command_producer.buffer.length < h.command_producer.capacity)
    ∧ ((h.pushCommand c).2 = .error .CommandQueueFull → (h.pushCommand c).1 = h) := by
  by_cases hc : h.command_producer.buffer.length < h.command_producer.capacity <;>
    simp [StaticSoundHandle.pushCommand, RingProducer.push, hc]

/-- Claim C4: every handle mutator returns Ok exactly when its command is
pushed onto the command ring (appending it, never dropping it) and returns
CommandQueueFull exactly when the ring has no free slot at push time, in
which case the handle state is unchanged. -/
theorem c4_handle_mutators_command_queue (h : StaticSoundHandle) (v : Volume)
    (r : PlaybackRate) (pan pos amt : ℚ) (tw : Tween) :
    (((h.set_volume v tw).2 = .ok () ↔
        h.command_producer.buffer.length < h.command_producer.capacity)
      ∧ ((h.set_volume v tw).2 = .ok () →
        (h.set_volume v tw).1.command_producer.buffer =
          h.command_producer.buffer ++ [.SetVolume v tw])
      ∧ ((h.set_volume v tw).2 = .error .CommandQueueFull ↔
        ¬ h.command_producer.buffer.length < h.command_producer.capacity)
      ∧ ((h.set_volume v tw).2 = .error .CommandQueueFull → (h.set_volume v tw).1 = h))
    ∧ (((h.set_playback_rate r tw).2 = .ok () ↔
        h.command_producer.buffer.length < h.command_producer.capacity)
      ∧ ((h.set_playback_rate r tw).2 = .ok () →
        (h.set_playback_rate r tw).1.command_producer.buffer =
          h.command_producer.buffer ++ [.SetPlaybackRate r tw])
      ∧ ((h.set_playback_rate r tw).2 = .error .CommandQueueFull ↔
        ¬ h.command_producer.buffer.length < h.command_producer.capacity)
      ∧ ((h.set_playback_rate r tw).2 = .error .CommandQueueFull →
        (h.set_playback_rate r tw).1 = h))
    ∧ (((h.set_panning pan tw).2 = .ok () ↔
        h.command_producer.buffer.length < h.command_producer.capacity)
      ∧ ((h.set_panning pan tw).2 = .ok () →
        (h.set_panning pan tw).1.command_producer.buffer =
          h.command_producer.buffer ++ [.SetPanning pan tw])
      ∧ ((h.set_panning pan tw).2 = .error .CommandQueueFull ↔
        ¬ h.command_producer.buffer.length < h.command_producer.capacity)
      ∧ ((h.set_panning pan tw).2 = .error .CommandQueueFull → (h.set_panning pan tw).1 = h))
    ∧ (((h.pause tw).2 = .ok () ↔
        h.command_producer.buffer.length < h.command_producer.capacity)
      ∧ ((h.pause tw).2 = .ok () →
        (h.pause tw).1.command_producer.buffer = h.command_producer.buffer ++ [.Pause tw])
      ∧ ((h.pause tw).2 = .error .CommandQueueFull ↔
        ¬ h.command_producer.buffer.length < h.command_producer.capacity)
      ∧ ((h.pause tw).2 = .error .CommandQueueFull → (h.pause tw).1 = h))
    ∧ (((h.resume tw).2 = .ok () ↔
        h.command_producer.buffer.length < h.command_producer.capacity)
      ∧ ((h.resume tw).2 = .ok () →
        (h.resume tw).1.command_producer.buffer = h.command_producer.buffer ++ [.Resume tw])
      ∧ ((h.resume tw).2 = .error .CommandQueueFull ↔
        ¬ h.command_producer.buffer.length < h.command_producer.capacity)
      ∧ ((h.resume tw).2 = .error .CommandQueueFull → (h.resume tw).1 = h))
    ∧ (((h.stop tw).2 = .ok () ↔
        h.command_producer.buffer.length < h.command_producer.capacity)
      ∧ ((h.stop tw).2 = .ok () →
        (h.stop tw).1.command_producer.buffer = h.command_producer.buffer ++ [.Stop tw])
      ∧ ((h.stop tw).2 = .error .CommandQueueFull ↔
        ¬ h.command_producer.buffer.length < h.command_producer.capacity)
      ∧ ((h.stop tw).2 = .error .CommandQueueFull → (h.stop tw).1 = h))
    ∧ (((h.seek_to pos).2 = .ok () ↔
        h.command_producer.buffer.length < h.command_producer.capacity)
      ∧ ((h.seek_to pos).2 = .ok () →
        (h.seek_to pos).1.command_producer.buffer = h.command_producer.buffer ++ [.SeekTo pos])
      ∧ ((h.seek_to pos).2 = .error .CommandQueueFull ↔
        ¬ h.command_producer.buffer.length < h.command_producer.capacity)
      ∧ ((h.seek_to pos).2 = .error .CommandQueueFull → (h.seek_to pos).1 = h))
    ∧ (((h.seek_by amt).2 = .ok () ↔
        h.command_producer.buffer.length < h.command_producer.capacity)
      ∧ ((h.seek_by amt).2 = .ok () →
        (h.seek_by amt).1.command_producer.buffer = h.command_producer.buffer ++ [.SeekBy amt])
      ∧ ((h.seek_by amt).2 = .error .CommandQueueFull ↔
        ¬ h.command_producer.buffer.length < h.command_producer.capacity)
      ∧ ((h.seek_by amt).2 = .error .CommandQueueFull → (h.seek_by amt).1 = h)) :=
  ⟨pushCommand_spec h _, pushCommand_spec h _, pushCommand_spec h _, pushCommand_spec h _,
   pushCommand_spec h _, pushCommand_spec h _, pushCommand_spec h _, pushCommand_spec h _⟩

/-- A handle whose command ring has one free slot, used as a concrete
input. -/
def handleRoomy : StaticSoundHandle :=
  { command_producer := { capacity := 1, buffer := [] },
    shared := { state := .Playing, position := 0 } }

/-- A handle whose command ring has no free slot, used as a concrete
input. -/
def handleFull : StaticSoundHandle :=
  { command_producer := { capacity := 0, buffer := [] },
    shared := { state := .Playing, position := 0 } }

/-- A linear one second tween, used as a concrete input. -/
def tw4 : Tween := { duration := 1, easing := .Linear }

/-- Witness for claim C4: with a free slot set_volume returns Ok and the
command lands in the ring; with a full ring stop returns CommandQueueFull
and the handle is unchanged. -/
theorem c4_handle_mutators_command_queue_witness :
    (handleRoomy.set_volume 1 tw4).2 = .ok ()
    ∧ (handleRoomy.set_volume 1 tw4).1.command_producer.buffer = [Command.SetVolume 1 tw4]
    ∧ (handleFull.stop tw4).2 = .error .CommandQueueFull
    ∧ (handleFull.stop tw4).1 = handleFull :=
  ⟨(c4_handle_mutators_command_queue handleRoomy 1 1 0 0 0 tw4).1.1.mpr (by decide),
   (c4_handle_mutators_command_queue handleRoomy 1 1 0 0 0 tw4).1.2.1
     ((c4_handle_mutators_command_queue handleRoomy 1 1 0 0 0 tw4).1.1.mpr (by decide)),
   (c4_handle_mutators_command_queue handleFull 1 1 0 0 0 tw4).2.2.2.2.2.1.2.2.1.mpr
     (by decide),
   (c4_handle_mutators_command_queue handleFull 1 1 0 0 0 tw4).2.2.2.2.2.1.2.2.2
     ((c4_handle_mutators_command_queue handleFull 1 1 0 0 0 tw4).2.2.2.2.2.1.2.2.1.mpr
       (by decide))⟩

end Kira

namespace Conductor

/-- Claim C5: once an instance is Stopped, a step leaves its playback
state Stopped and contributes zero output, and every instance command
leaves the instance entirely unchanged: Stopped is terminal and the
instance cannot be restarted. -/
theorem c5_stopped_is_terminal (i : Instance) (dt : ℚ) (sound : Sound) (op : InstanceOp)
    (h : i.playback = .Stopped) :
    (i.step dt sound).1.playback = .Stopped
    ∧ (i.step dt sound).2 = (0, 0)
    ∧ i.run_op op = i := by
  refine ⟨?_, ?_, ?_⟩
  · simp [Instance.step, h]
  · simp [Instance.step, h]
  · cases op <;> simp [Instance.run_op, h]

/-- A stopped instance of the plain concrete sound, used as a concrete
input. -/
def instStopped : Instance :=
  { sound_id := sidPlain, position := 2, playback := .Stopped }

/-- A concrete one second silent sound at one frame per second. -/
def soundTiny : Sound := { sample_rate := 1, frames := [(0, 0)] }

/-- Witness for claim C5 at a concrete stopped instance: the step keeps it
Stopped with zero output and a Stop command is a no-op. -/
theorem c5_stopped_is_terminal_witness :
    instStopped.playback = .Stopped
    ∧ (instStopped.step 1 soundTiny).1.playback = .Stopped
    ∧ (instStopped.step 1 soundTiny).2 = (0, 0)
    ∧ instStopped.run_op (.Stop none) = instStopped :=
  ⟨rfl,
   (c5_stopped_is_terminal instStopped 1 soundTiny (.Stop none) rfl).1,
   (c5_stopped_is_terminal instStopped 1 soundTiny (.Stop none) rfl).2.1,
   (c5_stopped_is_terminal instStopped 1 soundTiny (.Stop none) rfl).2.2⟩

/-- Claim C10: Project::load_sound is atomic. On decode failure the error
is returned and the sounds map and the metronomes are unchanged; on decode
success a freshly minted id is returned and the sounds map gains exactly
one entry, appended under that id, with all previously loaded sounds and
all metronomes unchanged. Freshness of the minted id is the stated counter
invariant: every existing key is below the counter. -/
theorem c10_load_sound_atomic {ε : Type} (p : Project) (decoded : Except ε Sound)
    (hfresh : ∀ k ∈ keys p.sounds, k < p.next_sound_id) :
    (∀ e, decoded = .error e →
      (p.load_sound decoded).2 = .error e
      ∧ (p.load_sound decoded).1.sounds = p.sounds
      ∧ (p.load_sound decoded).1.metronomes = p.metronomes)
    ∧ (∀ sound, decoded = .ok sound →
      (p.load_sound decoded).2 = .ok p.next_sound_id
      ∧ p.next_sound_id ∉ keys p.sounds
      ∧ (p.load_sound decoded).1.sounds = p.sounds ++ [(p.next_sound_id, sound)]
      ∧ (p.load_sound decoded).1.metronomes = p.metronomes) := by
  have hnotin : p.next_sound_id ∉ keys p.sounds := by
    intro hk
    exact absurd rfl (Nat.ne_of_lt (hfresh _ hk))
  constructor
  · intro e he
    subst he
    exact ⟨rfl, rfl, rfl⟩
  · intro sound hs
    subst hs
    refine ⟨rfl, hnotin, ?_, rfl⟩
    simp [Project.load_sound, indexMapInsert_of_not_mem _ _ _ hnotin]

/-- A project holding one sound under id 0 with the id counter at 1, used
as a concrete input. -/
def proj10 : Project := { sounds := [(0, soundTiny)], next_sound_id := 1 }

/-- Witness for claim C10 at the concrete project: a failed decode returns
the error and changes nothing; a successful decode returns the fresh id 1
and appends exactly one entry. -/
theorem c10_load_sound_atomic_witness :
    (∀ k ∈ keys proj10.sounds, k < proj10.next_sound_id)
    ∧ (proj10.load_sound (.error ())).2 = (.error () : Except Unit Id.SoundId)
    ∧ (proj10.load_sound (.error () : Except Unit Sound)).1.sounds = proj10.sounds
    ∧ (proj10.load_sound (.ok (ε := Unit) soundTiny)).2 = .ok proj10.next_sound_id
    ∧ (proj10.load_sound (.ok (ε := Unit) soundTiny)).1.sounds =
        proj10.sounds ++ [(proj10.next_sound_id, soundTiny)]
    ∧ (proj10.load_sound (.ok (ε := Unit) soundTiny)).1.metronomes = proj10.metronomes :=
  ⟨by decide,
   ((c10_load_sound_atomic proj10 (.error ()) (by decide)).1 () rfl).1,
   ((c10_load_sound_atomic proj10 (.error ()) (by decide)).1 () rfl).2.1,
   ((c10_load_sound_atomic proj10 (.ok soundTiny) (by decide)).2 soundTiny rfl).1,
   ((c10_load_sound_atomic proj10 (.ok soundTiny) (by decide)).2 soundTiny rfl).2.2.1,
   ((c10_load_sound_atomic proj10 (.ok soundTiny) (by decide)).2 soundTiny rfl).2.2.2⟩

end Conductor

theorem lookupKey_eq_of_mem {K V : Type} [DecidableEq K] :
    ∀ (l : List (K × V)) (k : K) (v : V), (keys l).Nodup → (k, v) ∈ l →
      lookupKey k l = some v
  | [], _, _, _, h => absurd h (List.not_mem_nil _)
  | p :: rest, k, v, hnd, h => by
    rcases List.mem_cons.mp h with h1 | h1
    · rw [← h1]
      simp [lookupKey]
    · have hk : ¬ p.1 = k := by
        intro he
        have hkr : k ∈ keys rest := List.mem_map_of_mem Prod.fst h1
        exact (List.nodup_cons.mp hnd).1 (he ▸ hkr)
      simp only [lookupKey, if_neg hk]
      exact lookupKey_eq_of_mem rest k v (List.nodup_cons.mp hnd).2 h1

theorem removeKey_not_mem_keys {K V : Type} [DecidableEq K] (k : K) (l : List (K × V)) :
    k ∉ keys (removeKey k l) := by
  intro h
  simp only [keys, removeKey, List.mem_map, List.mem_filter, decide_eq_true_eq] at h
  obtain ⟨p, ⟨_, hne⟩, hk⟩ := h
  exact hne hk

theorem mem_removeKey {K V : Type} [DecidableEq K] (k k' : K) (v : V) (l : List (K × V))
    (hne : k' ≠ k) (h : (k', v) ∈ l) : (k', v) ∈ removeKey k l := by
  simp only [removeKey, List.mem_filter, decide_eq_true_eq]
  exact ⟨h, hne⟩

theorem keys_removeKey_nodup {K V : Type} [DecidableEq K] (k : K) (l : List (K × V))
    (hnd : (keys l).Nodup) : (keys (removeKey k l)).Nodup :=
  hnd.sublist (List.Sublist.map Prod.fst (List.filter_sublist l))

theorem mem_push_buffer {T : Type} (r : RingProducer T) (y x : T) (hx : x ∈ r.buffer) :
    x ∈ (r.push y).1.buffer := by
  by_cases hc : r.buffer.length < r.capacity <;> simp [RingProducer.push, hc, hx]

theorem push_mem_of_ok {T : Type} (r : RingProducer T) (y : T) (hok : (r.push y).2 = true) :
    y ∈ (r.push y).1.buffer := by
  by_cases hc : r.buffer.length < r.capacity <;> simp_all [RingProducer.push, hc]

namespace Conductor

theorem removeFinished_ring_mono {E : Type} (ids : List SequenceId) :
    ∀ (seqs : List (SequenceId × Sequence E)) (ring : RingProducer (Sequence E))
      (x : Sequence E), x ∈ ring.buffer → x ∈ (removeFinished seqs ring ids).2.buffer := by
  induction ids with
  | nil => intro seqs ring x hx; exact hx
  | cons idh rest ih =>
    intro seqs ring x hx
    cases hl : lookupKey idh seqs with
    | none =>
      simpa [removeFinished, hl] using ih seqs ring x hx
    | some sqh =>
      by_cases hp : (ring.push sqh).2 = true
      · simpa [removeFinished, hl, hp] using
          ih (removeKey idh seqs) (ring.push sqh).1 x (mem_push_buffer ring sqh x hx)
      · simpa [removeFinished, hl, hp] using
          ih (indexMapInsert idh sqh (removeKey idh seqs)) ring x hx

theorem removeFinished_mem_frame {E : Type} (ids : List SequenceId) :
    ∀ (seqs : List (SequenceId × Sequence E)) (ring : RingProducer (Sequence E))
      (id : SequenceId) (sq : Sequence E), id ∉ ids → (id, sq) ∈ seqs →
      (id, sq) ∈ (removeFinished seqs ring ids).1 := by
  induction ids with
  | nil => intro seqs ring id sq _ hmem; exact hmem
  | cons idh rest ih =>
    intro seqs ring id sq hni hmem
    have hne : id ≠ idh := fun he => hni (he ▸ List.mem_cons_self _ _)
    have hnirest : id ∉ rest := fun hr => hni (List.mem_cons_of_mem _ hr)
    cases hl : lookupKey idh seqs with
    | none =>
      simpa [removeFinished, hl] using ih seqs ring id sq hnirest hmem
    | some sqh =>
      have hmem1 : (id, sq) ∈ removeKey idh seqs := mem_removeKey idh id sq seqs hne hmem
      by_cases hp : (ring.push sqh).2 = true
      · simpa [removeFinished, hl, hp] using
          ih (removeKey idh seqs) (ring.push sqh).1 id sq hnirest hmem1
      · have hmem2 : (id, sq) ∈ indexMapInsert idh sqh (removeKey idh seqs) := by
          rw [indexMapInsert_of_not_mem _ _ _ (removeKey_not_mem_keys idh seqs)]
          exact List.mem_append_left _ hmem1
        simpa [removeFinished, hl, hp] using
          ih (indexMapInsert idh sqh (removeKey idh seqs)) ring id sq hnirest hmem2

theorem removeFinished_key_frame {E : Type} (ids : List SequenceId) :
    ∀ (seqs : List (SequenceId × Sequence E)) (ring : RingProducer (Sequence E))
      (id : SequenceId), id ∉ ids → id ∉ keys seqs →
      id ∉ keys (removeFinished seqs ring ids).1 := by
  induction ids with
  | nil => intro seqs ring id _ hnk; exact hnk
  | cons idh rest ih =>
    intro seqs ring id hni hnk
    have hne : id ≠ idh := fun he => hni (he ▸ List.mem_cons_self _ _)
    have hnirest : id ∉ rest := fun hr => hni (List.mem_cons_of_mem _ hr)
    have h1 : id ∉ keys (removeKey idh seqs) := by
      intro hk
      apply hnk
      simp only [keys, removeKey, List.mem_map, List.mem_filter, decide_eq_true_eq] at hk ⊢
      obtain ⟨p, ⟨hpl, _⟩, hpk⟩ := hk
      exact ⟨p, hpl, hpk⟩
    cases hl : lookupKey idh seqs with
    | none =>
      simpa [removeFinished, hl] using ih seqs ring id hnirest hnk
    | some sqh =>
      by_cases hp : (ring.push sqh).2 = true
      · simpa [removeFinished, hl, hp] using
          ih (removeKey idh seqs) (ring.push sqh).1 id hnirest h1
      · have h2 : id ∉ keys (indexMapInsert idh sqh (removeKey idh seqs)) := by
          rw [indexMapInsert_of_not_mem _ _ _ (removeKey_not_mem_keys idh seqs)]
          simp only [keys_append, List.mem_append, keys_cons, keys_nil,
            List.mem_singleton, not_or]
          exact ⟨h1, hne⟩
        simpa [removeFinished, hl, hp] using
          ih (indexMapInsert idh sqh (removeKey idh seqs)) ring id hnirest h2

theorem removeFinished_preserves {E : Type} (ids : List SequenceId) :
    ∀ (seqs : List (SequenceId × Sequence E)) (ring : RingProducer (Sequence E))
      (id : SequenceId) (sq : Sequence E),
      ids.Nodup → (keys seqs).Nodup → id ∈ ids → (id, sq) ∈ seqs →
      (sq ∈ (removeFinished seqs ring ids).2.buffer
        ∧ id ∉ keys (removeFinished seqs ring ids).1)
      ∨ (id, sq) ∈ (removeFinished seqs ring ids).1 := by
  induction ids with
  | nil => intro _ _ _ _ _ _ hin _; exact absurd hin (List.not_mem_nil _)
  | cons idh rest ih =>
    intro seqs ring id sq hndids hndk hin hmem
    have hndrest : rest.Nodup := (List.nodup_cons.mp hndids).2
    by_cases he : idh = id
    · subst he
      have hl : lookupKey idh seqs = some sq := lookupKey_eq_of_mem seqs idh sq hndk hmem
      have hidrest : idh ∉ rest := (List.nodup_cons.mp hndids).1
      have hrk : idh ∉ keys (removeKey idh seqs) := removeKey_not_mem_keys idh seqs
      by_cases hp : (ring.push sq).2 = true
      · left
        constructor
        · simpa [removeFinished, hl, hp] using
            removeFinished_ring_mono rest (removeKey idh seqs) (ring.push sq).1 sq
              (push_mem_of_ok ring sq hp)
        · simpa [removeFinished, hl, hp] using
            removeFinished_key_frame rest (removeKey idh seqs) (ring.push sq).1 idh
              hidrest hrk
      · right
        have hmem2 : (idh, sq) ∈ indexMapInsert idh sq (removeKey idh seqs) := by
          rw [indexMapInsert_of_not_mem _ _ _ hrk]
          exact List.mem_append_right _ (List.mem_singleton.mpr rfl)
        simpa [removeFinished, hl, hp] using
          removeFinished_mem_frame rest (indexMapInsert idh sq (removeKey idh seqs)) ring
            idh sq hidrest hmem2
    · have hin' : id ∈ rest := by
        rcases List.mem_cons.mp hin with h1 | h1
        · exact absurd h1.symm he
        · exact h1
      cases hl : lookupKey idh seqs with
      | none =>
        simpa [removeFinished, hl] using ih seqs ring id sq hndrest hndk hin' hmem
      | some sqh =>
        have hmem1 : (id, sq) ∈ removeKey idh seqs :=
          mem_removeKey idh id sq seqs (fun h1 => he h1.symm) hmem
        have hnd1 : (keys (removeKey idh seqs)).Nodup := keys_removeKey_nodup idh seqs hndk
        by_cases hp : (ring.push sqh).2 = true
        · simpa [removeFinished, hl, hp] using
            ih (removeKey idh seqs) (ring.push sqh).1 id sq hndrest hnd1 hin' hmem1
        · have hidh1 : idh ∉ keys (removeKey idh seqs) := removeKey_not_mem_keys idh seqs
          have hmem2 : (id, sq) ∈ indexMapInsert idh sqh (removeKey idh seqs) := by
            rw [indexMapInsert_of_not_mem _ _ _ hidh1]
            exact List.mem_append_left _ hmem1
          have hnd2 : (keys (indexMapInsert idh sqh (removeKey idh seqs))).Nodup := by
            rw [indexMapInsert_of_not_mem _ _ _ hidh1]
            rw [keys_append]
            refine List.nodup_append.mpr ⟨hnd1, List.nodup_singleton _, ?_⟩
            intro a ha hb
            simp only [keys_cons, keys_nil, List.mem_singleton] at hb
            exact hidh1 (hb ▸ ha)
          simpa [removeFinished, hl, hp] using
            ih (indexMapInsert idh sqh (removeKey idh seqs)) ring id sq hndrest hnd2
              hin' hmem2

theorem keys_steppedSeqs {E : Type} (s : Sequences E) (dt : ℚ) (m : Metronome) :
    keys (s.steppedSeqs dt m) = keys s.sequences := by
  simp [Sequences.steppedSeqs, keys, List.map_map, Function.comp]

/-- Claim C3: in Sequences::update, every sequence that reports finished
after its tick is removed from the sequence map and pushed onto the
sequence return ring; when that push fails on a full ring the sequence is
reinserted into the map under its original id, so a finished sequence is
never dropped on the audio thread: after update it is in the return ring
(and absent from the map) or still in the map under its id. -/
theorem c3_finished_sequence_never_dropped {E : Type} (s : Sequences E) (dt : ℚ)
    (m : Metronome) (ring : RingProducer (Sequence E))
    (hrem : s.sequences_to_remove = []) (hnd : (keys s.sequences).Nodup)
    (id : SequenceId) (sq : Sequence E)
    (hmem : (id, sq) ∈ s.steppedSeqs dt m) (hfin : sq.finished = true) :
    (sq ∈ (s.update dt m ring).2.1.buffer
      ∧ id ∉ keys (s.update dt m ring).1.sequences)
    ∨ (id, sq) ∈ (s.update dt m ring).1.sequences := by
  have hks : (keys (s.steppedSeqs dt m)).Nodup := by
    rw [keys_steppedSeqs]; exact hnd
  have hin : id ∈ s.finishedIds dt m := by
    simp only [Sequences.finishedIds, List.mem_map, List.mem_filter]
    exact ⟨(id, sq), ⟨hmem, hfin⟩, rfl⟩
  have hndids : (s.finishedIds dt m).Nodup := by
    have hsub : (s.finishedIds dt m).Sublist (keys (s.steppedSeqs dt m)) :=
      List.Sublist.map Prod.fst (List.filter_sublist _)
    exact hks.sublist hsub
  have hmain := removeFinished_preserves (s.finishedIds dt m) (s.steppedSeqs dt m) ring
    id sq hndids hks hin hmem
  simpa [Sequences.update, hrem] using hmain

/-- A playing sequence with no steps: its first tick finishes it. -/
def seqFinishing : Sequence Unit := { tasks := [], state := .Playing }

/-- The same sequence after its finishing tick. -/
def seqDone : Sequence Unit := { tasks := [], state := .Finished }

/-- A sequence backend holding the finishing sequence under id 7, used as
a concrete input. -/
def seqs3 : Sequences Unit := { sequences := [(7, seqFinishing)] }

/-- An empty sequence return ring with one free slot, used as a concrete
input. -/
def ring3 : RingProducer (Sequence Unit) := { capacity := 1, buffer := [] }

/-- Witness for claim C3 at the concrete backend: the finished sequence
ends up in the return ring or back in the map. -/
theorem c3_finished_sequence_never_dropped_witness :
    seqs3.sequences_to_remove = []
    ∧ (keys seqs3.sequences).Nodup
    ∧ (7, seqDone) ∈ seqs3.steppedSeqs 1 metBase
    ∧ seqDone.finished = true
    ∧ ((seqDone ∈ (seqs3.update 1 metBase ring3).2.1.buffer
        ∧ 7 ∉ keys (seqs3.update 1 metBase ring3).1.sequences)
      ∨ (7, seqDone) ∈ (seqs3.update 1 metBase ring3).1.sequences) :=
  ⟨rfl, by decide, by decide, rfl,
   c3_finished_sequence_never_dropped seqs3 1 metBase ring3 rfl (by decide) 7 seqDone
     (by decide) rfl⟩

end Conductor

theorem getD_append_left (l l1 : List ℚ) (n : Nat) (h : n < l.length) :
    (l ++ l1).getD n 0 = l.getD n 0 := by
  induction l generalizing n with
  | nil => exact absurd h (by simp)
  | cons x rest ih =>
    cases n with
    | zero => rfl
    | succ n1 =>
      simp only [List.cons_append, List.getD_cons_succ]
      exact ih n1 (by simpa using h)

theorem getD_append_right (l l1 : List ℚ) (n : Nat) (h : l.length ≤ n) :
    (l ++ l1).getD n 0 = l1.getD (n - l.length) 0 := by
  induction l generalizing n with
  | nil => simp
  | cons x rest ih =>
    cases n with
    | zero => exact absurd h (by simp)
    | succ n1 =>
      simp only [List.cons_append, List.getD_cons_succ, List.length_cons,
        Nat.succ_sub_succ]
      exact ih n1 (by simpa using h)

namespace Kira

theorem length_writeFrame (channels : Nat) (f : Frame) (chunk : List ℚ) :
    (writeFrame channels f chunk).length = chunk.length := by
  unfold writeFrame
  split <;> simp

theorem writeFrame_getD_one (f : Frame) (chunk : List ℚ) (h : chunk.length = 1) :
    (writeFrame 1 f chunk).getD 0 0 = (f.left + f.right) / 2 := by
  match chunk, h with
  | [x], _ => simp [writeFrame]

theorem writeFrame_getD_many (channels : Nat) (f : Frame) (chunk : List ℚ)
    (hch : 2 ≤ channels) (h : 2 ≤ chunk.length) :
    (writeFrame channels f chunk).getD 0 0 = f.left
    ∧ (writeFrame channels f chunk).getD 1 0 = f.right := by
  have hne : ¬ channels = 1 := by omega
  match chunk, h with
  | a :: b :: t, _ =>
    constructor <;> simp [writeFrame, hne]

theorem fillGo_getD (channels : Nat) (hch : 0 < channels) :
    ∀ (i fuel : Nat) (process : Nat → Frame) (data : List ℚ) (j : Nat),
      (i + 1) * channels ≤ data.length → data.length ≤ fuel → j < channels →
      (fillGo channels fuel process data).getD (i * channels + j) 0 =
        (writeFrame channels (process i) ((data.drop (i * channels)).take channels)).getD
          j 0 := by
  intro i
  induction i with
  | zero =>
    intro fuel process data j h1 h2 h3
    have h1a : channels ≤ data.length := by
      have e : (0 + 1) * channels = channels := by ring
      omega
    cases fuel with
    | zero => omega
    | succ f =>
      have hcond : 0 < channels ∧ channels ≤ data.length := ⟨hch, h1a⟩
      simp only [fillGo, if_pos hcond]
      have hlt : j < (writeFrame channels (process 0) (data.take channels)).length := by
        rw [length_writeFrame, List.length_take]
        omega
      simp only [Nat.zero_mul, Nat.zero_add, List.drop_zero]
      rw [getD_append_left _ _ _ hlt]

  | succ i ih =>
    intro fuel process data j h1 h2 h3
    have e2 : (i + 1 + 1) * channels = (i + 1) * channels + channels := by ring
    have e1 : (i + 1) * channels = i * channels + channels := by ring
    have h1a : channels ≤ data.length := by omega
    cases fuel with
    | zero => omega
    | succ f =>
      have hcond : 0 < channels ∧ channels ≤ data.length := ⟨hch, h1a⟩
      simp only [fillGo, if_pos hcond]
      have hge : (writeFrame channels (process 0) (data.take channels)).length ≤
          (i + 1) * channels + j := by
        rw [length_writeFrame, List.length_take]
        omega
      rw [getD_append_right _ _ _ hge]
      rw [length_writeFrame, List.length_take]
      have hidx : (i + 1) * channels + j - min channels data.length =
          i * channels + j := by omega
      rw [hidx]
      rw [ih f (fun n => process (n + 1)) (data.drop channels) j
        (by rw [List.length_drop]; omega)
        (by rw [List.length_drop]; omega) h3]
      rw [List.drop_drop]
      have e3 : channels + i * channels = (i + 1) * channels := by ring
      rw [e3]

/-- Claim C8: for every frame the audio callback fills, with one device
channel the single sample written is the average of the left and right
samples of the produced frame; otherwise the left sample is written to
position 0 and the right sample to position 1 of the frame. -/
theorem c8_callback_frame_write (channels : Nat) (process : Nat → Frame) (data : List ℚ)
    (i : Nat) (hch : 0 < channels) (hi : (i + 1) * channels ≤ data.length) :
    (channels = 1 →
      (audioCallbackFill channels process data).getD (i * channels) 0 =
        ((process i).left + (process i).right) / 2)
    ∧ (2 ≤ channels →
      (audioCallbackFill channels process data).getD (i * channels) 0 = (process i).left
      ∧ (audioCallbackFill channels process data).getD (i * channels + 1) 0 =
          (process i).right) := by
  have e1 : (i + 1) * channels = i * channels + channels := by ring
  have hchunk : ((data.drop (i * channels)).take channels).length = channels := by
    rw [List.length_take, List.length_drop]
    omega
  constructor
  · intro h1
    subst h1
    have := fillGo_getD 1 hch i data.length process data 0 (by omega)
      (Nat.le_refl _) (by omega)
    simp only [Nat.add_zero] at this
    rw [audioCallbackFill, this]
    exact writeFrame_getD_one (process i) _ (by omega)
  · intro h2
    have hw := writeFrame_getD_many channels (process i)
      ((data.drop (i * channels)).take channels) h2 (by omega)
    constructor
    · have := fillGo_getD channels hch i data.length process data 0 hi
        (Nat.le_refl _) (by omega)
      simp only [Nat.add_zero] at this
      rw [audioCallbackFill, this]
      exact hw.1
    · have := fillGo_getD channels hch i data.length process data 1 hi
        (Nat.le_refl _) (by omega)
      rw [audioCallbackFill, this]
      exact hw.2

/-- A backend producing the frame (3, 5) forever, used as a concrete
input. -/
def proc8 : Nat → Frame := fun _ => { left := 3, right := 5 }

/-- Witness for claim C8: with two channels the first frame of a four
sample buffer receives left then right; with one channel the single sample
is the average. -/
theorem c8_callback_frame_write_witness :
    (audioCallbackFill 2 proc8 [0, 0, 0, 0]).getD 0 0 = (proc8 0).left
    ∧ (audioCallbackFill 2 proc8 [0, 0, 0, 0]).getD 1 0 = (proc8 0).right
    ∧ (audioCallbackFill 1 proc8 [0, 0]).getD 0 0 = ((proc8 0).left + (proc8 0).right) / 2 :=
  ⟨((c8_callback_frame_write 2 proc8 [0, 0, 0, 0] 0 (by decide) (by decide)).2
      (by decide)).1,
   ((c8_callback_frame_write 2 proc8 [0, 0, 0, 0] 0 (by decide) (by decide)).2
      (by decide)).2,
   (c8_callback_frame_write 1 proc8 [0, 0] 0 (by decide) (by decide)).1 rfl⟩

end Kira

namespace Conductor

/-- The loop settings of the concrete scenario of claim C6: loop start 2
beats, loop end 6 beats. -/
def lsC6 : LoopSettings := { start := some (.Beats 2), end_ := some (.Beats 6) }

/-- The instance settings of the concrete scenario of claim C6: position
zero, all other fields default. -/
def isC6 : InstanceSettings := {}

/-- The sequence backend after running the LoopSound command of claim C6
on the 4 second sound with authored tempo 120 beats per minute and
semantic duration 8 beats. -/
def stateC6 : Sequences Unit :=
  (Sequences.new 8 8).run_command (.LoopSound 0 sidTempoed lsC6 isC6) metBase

/-- The sequence the LoopSound command of claim C6 inserted under id 0. -/
def seqC6 : Sequence Unit := (lookupKey 0 stateC6.sequences).getD Sequence.new

/-- The idealized continuous-time PlaySound schedule of the claim C6
sequence: the start time and settings of each play emission, twelve
interpreter steps deep. -/
def playsC6 : List (ℚ × SoundId × InstanceSettings) :=
  schedTasks (governingTempo sidTempoed metBase) 12 seqC6.tasks 0 none 0 []

theorem playsC6_eval :
    playsC6 = [(0, sidTempoed, isC6),
               (3, sidTempoed, { isC6 with position := 1 }),
               (5, sidTempoed, { isC6 with position := 1 }),
               (7, sidTempoed, { isC6 with position := 1 })] := by
  have htasks : seqC6.tasks = [
      .PlaySound sidTempoed isC6,
      .Wait (.Seconds 3),
      .StartLoop,
      .PlaySound sidTempoed { isC6 with position := 1 },
      .Wait (.Seconds 2)] := by
    norm_num [seqC6, stateC6, Sequences.new, Sequences.run_command, Sequences.start_sequence,
      Sequence.new, Sequence.play_sound, Sequence.wait, Sequence.start_loop, Sequence.start,
      indexMapInsert, lookupKey, loopStartSeconds, loopEndSeconds, defaultLoopEnd,
      governingTempo, Duration.in_seconds, lsC6, isC6, sidTempoed, metBase]
  have htempo : governingTempo sidTempoed metBase = 120 := by
    norm_num [governingTempo, sidTempoed, metBase]
  rw [playsC6, htasks, htempo]
  norm_num [schedTasks, Duration.in_seconds]

/-- Counterexample for claim C6: on the synthesized sequence the plays
start at 0, 3, 5 and 7 seconds, so no play starts at t = 2 seconds; the
first looped play starts at t = 3 seconds (with position 1 second), not at
t = 2 seconds as claimed, because the first wait is the loop end (3
seconds) minus the instance position (0), not the loop length. -/
theorem c6_loop_macro_counterexample :
    playsC6.map Prod.fst = [0, 3, 5, 7]
    ∧ ((playsC6.map Prod.fst).contains 2) = false
    ∧ playsC6[1]? = some (3, sidTempoed, { isC6 with position := 1 }) := by
  rw [playsC6_eval]
  refine ⟨rfl, ?_, rfl⟩
  norm_num [List.contains]

/-- Claim C6 as amended: for the 4 second sound with authored tempo 120
beats per minute and semantic duration 8 beats, LoopSound with loop start
2 beats, loop end 6 beats and instance position 0 plays once at t = 0 from
position 0, then the first looped play begins at t = 3 seconds with
position 1 second, another at t = 5 seconds with position 1 second, and
the steady-state loop period is 2 seconds. -/
theorem c6_loop_macro_amended :
    playsC6 = [(0, sidTempoed, isC6),
               (3, sidTempoed, { isC6 with position := 1 }),
               (5, sidTempoed, { isC6 with position := 1 }),
               (7, sidTempoed, { isC6 with position := 1 })]
    ∧ (playsC6.map Prod.fst).getD 2 0 - (playsC6.map Prod.fst).getD 1 0 = 2
    ∧ (playsC6.map Prod.fst).getD 3 0 - (playsC6.map Prod.fst).getD 2 0 = 2 := by
  refine ⟨playsC6_eval, ?_, ?_⟩ <;> rw [playsC6_eval] <;> norm_num

end Conductor
